import Mathlib

/-
Verification of the ChatOpsMVP client-side streaming chat logic.

Shallow embedding of:
  - src/frontend/src/types/chat.ts        (Message, ChatState, StreamChunk)
  - src/frontend/src/store/chatStore.ts   (useChatStore: addMessage, setLoading, setError)
  - src/frontend/src/hooks/useChat.ts     (sendMessage: fetch, stream read loop, catch/finally)
  - src/frontend/src/components/Chat.tsx  (disabled = isLoading || isStreaming; ChatInput.handleSend)

Modelling conventions:
  - A `Message` carries role and content; the store also attaches a fresh uuid
    and a timestamp, which are nondeterministic metadata never branched on by
    the code under verification, so they are omitted from the embedding.
  - One `reader.read()` unit is a `StreamUnit := Except String StreamChunk`:
    `Except.ok c` models a byte block whose decoded text JSON-parses to chunk
    `c`; `Except.error m` models a block on which `JSON.parse` throws an Error
    with message `m` (the catch block stores `err.message`).
  - The HTTP response is a `FetchResponse`: `ok`/`status` mirror the fetch
    Response; `bodyText` is what `response.text()` yields on the error path;
    `body = none` models `response.body?.getReader()` returning undefined,
    `body = some units` models the readable stream, one unit per read, the
    list end modelling `reader.read()` returning `done = true`.
-/

namespace ChatOps

/-- Role of a conversation message, from the `role: 'user' | 'assistant'`
union in src/frontend/src/types/chat.ts. -/
inductive Role where
  | user
  | assistant
deriving DecidableEq, Repr

/-- A conversation message (types/chat.ts `Message`), reduced to the fields
the verified code reads: role and content. -/
structure Message where
  role : Role
  content : String
deriving DecidableEq, Repr

/-- One unit of the normalized streaming wire protocol
(types/chat.ts `StreamChunk`). -/
structure StreamChunk where
  content : String
  done : Bool
deriving DecidableEq, Repr

/-- The JSON body `sendMessage` posts to `/api/v1/chat`
(`{ messages: [...], stream: true }`). -/
structure ChatRequest where
  messages : List Message
  stream : Bool
deriving DecidableEq, Repr

/-- Combined client state: the zustand store fields of chatStore.ts
(`messages`, `isLoading`, `error`) together with the `isStreaming` local
state of the useChat hook. -/
structure ClientState where
  messages : List Message
  isLoading : Bool
  error : Option String
  isStreaming : Bool
deriving DecidableEq, Repr

/-- Initial store state from chatStore.ts: `messages: [], isLoading: false,
error: null`, and the hook starts with `isStreaming = false`. -/
def init : ClientState := ⟨[], false, none, false⟩

/-- chatStore.ts `addMessage`: appends one new message built from the given
content and role to the end of `messages` (spread `[...state.messages, {...}]`). -/
def addMessage (st : ClientState) (content : String) (role : Role) : ClientState :=
  { st with messages := st.messages ++ [⟨role, content⟩] }

/-- chatStore.ts `setLoading`: sets `isLoading` only. -/
def setLoading (st : ClientState) (b : Bool) : ClientState :=
  { st with isLoading := b }

/-- chatStore.ts `setError`: sets `error` only. -/
def setError (st : ClientState) (e : Option String) : ClientState :=
  { st with error := e }

/-- One `reader.read()` result as seen after decode + parse: either a parsed
`StreamChunk` or a thrown parse-error message. -/
abbrev StreamUnit := Except String StreamChunk

/-- The HTTP response the `fetch` in useChat.ts `sendMessage` resolves to. -/
structure FetchResponse where
  ok : Bool
  status : Nat
  bodyText : String
  body : Option (List StreamUnit)

/-- The `while (true)` read loop of useChat.ts `sendMessage`, with the
enclosing catch block inlined at the only throw site inside the loop
(`JSON.parse` failure, caught as `setError(err.message)`):
  - read returns done (list exhausted): log and `break` — state unchanged;
  - parse failure: exception propagates to catch, which records the message;
  - parsed chunk: `accumulatedContent += data.content`; if `data.done`,
    `addMessage(accumulatedContent, 'assistant')` then `break`. -/
def readLoop (st : ClientState) (acc : String) : List StreamUnit → ClientState
  | [] => st
  | Except.error emsg :: _ => setError st (some emsg)
  | Except.ok data :: rest =>
      if data.done then addMessage st (acc ++ data.content) Role.assistant
      else readLoop st (acc ++ data.content) rest

/-- The statements of `sendMessage` executed before any network response is
awaited: `setLoading(true)`, `setError(null)`, `addMessage(content, 'user')`. -/
def preSend (st : ClientState) (content : String) : ClientState :=
  addMessage (setError (setLoading st true) none) content Role.user

/-- The request body `sendMessage` serializes:
`{ messages: [{ role: 'user', content }], stream: true }` — only the newly
submitted message, built inline, never the store history. -/
def requestBody (content : String) : ChatRequest :=
  { messages := [⟨Role.user, content⟩], stream := true }

/-- Handling of the resolved response in `sendMessage`, with the catch block
inlined at each throw site:
  - `!response.ok`: read `response.text()` and throw
    ``Failed to send message: ${status} ${errorText}`` (caught: `setError`);
  - no readable body: throw `'No response stream available'` (caught);
  - otherwise `setIsStreaming(true)` and run the read loop with an empty
    accumulator. -/
def handleResponse (st : ClientState) (resp : FetchResponse) : ClientState :=
  if resp.ok then
    match resp.body with
    | none => setError st (some "No response stream available")
    | some units => readLoop { st with isStreaming := true } "" units
  else
    setError st
      (some ("Failed to send message: " ++ toString resp.status ++ " " ++ resp.bodyText))

/-- The `finally` block of `sendMessage`: `setLoading(false)`,
`setIsStreaming(false)`. -/
def finalize (st : ClientState) : ClientState :=
  { st with isLoading := false, isStreaming := false }

/-- useChat.ts `sendMessage`, as a function of the current client state, the
submitted content, and the response the single `fetch` resolves to. Returns
the final client state and the request body that was posted. -/
def sendMessage (st : ClientState) (content : String) (resp : FetchResponse) :
    ClientState × ChatRequest :=
  (finalize (handleResponse (preSend st content) resp), requestBody content)

/-- Chat.tsx: the input is rendered with `disabled = isLoading || isStreaming`. -/
def chatInputDisabled (st : ClientState) : Bool :=
  st.isLoading || st.isStreaming

/-- Model of JS `String.prototype.trim`: drop leading and trailing whitespace
characters (executable over the character list, unlike `String.trim`). -/
def trimString (s : String) : String :=
  ⟨((s.data.dropWhile Char.isWhitespace).reverse.dropWhile Char.isWhitespace).reverse⟩

/-- ChatInput `handleSend`: `if (message.trim() && !disabled) onSend(message.trim())`.
Returns the content passed to `onSend`, or `none` when no send happens
(JS: a nonempty string is truthy, the empty string falsy). -/
def handleSend (message : String) (disabled : Bool) : Option String :=
  if trimString message ≠ "" && !disabled then some (trimString message) else none

/-- Concatenation of the `content` fields of a chunk list, in arrival order —
the spec-side notion the accumulation claims compare against. -/
def concatContents : List StreamChunk → String
  | [] => ""
  | c :: cs => c.content ++ concatContents cs

lemma strAppend_assoc (a b c : String) : a ++ b ++ c = a ++ (b ++ c) :=
  String.ext (by simp)

lemma strAppend_empty (a : String) : a ++ "" = a :=
  String.ext (by simp)

/-- Reading a prefix of successfully parsed, non-terminal chunks just extends
the accumulator by their concatenated contents. -/
lemma readLoop_ok_notDone (pre : List StreamChunk) (st : ClientState) (acc : String)
    (rest : List StreamUnit) (h : ∀ c ∈ pre, c.done = false) :
    readLoop st acc (pre.map Except.ok ++ rest) =
      readLoop st (acc ++ concatContents pre) rest := by
  induction pre generalizing acc with
  | nil => simp [concatContents, strAppend_empty]
  | cons c cs ih =>
      have hc : c.done = false := h c (by simp)
      have hcs : ∀ d ∈ cs, d.done = false := fun d hd => h d (by simp [hd])
      have h1 : readLoop st acc ((c :: cs).map Except.ok ++ rest)
          = readLoop st (acc ++ c.content) (cs.map Except.ok ++ rest) := by
        simp [readLoop, hc]
      rw [h1, ih _ hcs, concatContents, strAppend_assoc]

/-- The read loop never removes or edits messages: whatever it does, the
starting message list is a prefix of the resulting one. -/
lemma readLoop_messages_extend (units : List StreamUnit) (st : ClientState) (acc : String) :
    ∃ tail, (readLoop st acc units).messages = st.messages ++ tail := by
  induction units generalizing acc with
  | nil => exact ⟨[], by simp [readLoop]⟩
  | cons u rest ih =>
      cases u with
      | error emsg => exact ⟨[], by simp [readLoop, setError]⟩
      | ok data =>
          by_cases hd : data.done = true
          · exact ⟨[⟨Role.assistant, acc ++ data.content⟩], by simp [readLoop, hd, addMessage]⟩
          · have := ih (acc ++ data.content)
            simpa [readLoop, hd] using this

/-- Neither `setLoading`, `setError`, nor `finalize` touches the message list;
`addMessage` appends exactly one message. -/
lemma state_ops_frame (st : ClientState) (b : Bool) (e : Option String)
    (c : String) (r : Role) :
    (setLoading st b).messages = st.messages ∧
    (setError st e).messages = st.messages ∧
    (finalize st).messages = st.messages ∧
    (addMessage st c r).messages = st.messages ++ [⟨r, c⟩] :=
  ⟨rfl, rfl, rfl, rfl⟩

lemma strEmpty_append (a : String) : "" ++ a = a :=
  String.ext (by simp)

lemma concatContents_append (cs ds : List StreamChunk) :
    concatContents (cs ++ ds) = concatContents cs ++ concatContents ds := by
  induction cs with
  | nil => simp [concatContents, strEmpty_append]
  | cons c cs ih => simp [concatContents, ih, strAppend_assoc]

/-- C1 counterexample: for the stream that delivers one non-terminal chunk
`{content: "Hel", done: false}` and then signals end-of-data, the reader
commits no assistant message but also records NO error — `error` is `none`
in the final state, while the claim requires an `IncompleteStreamError`
to be reported. -/
theorem C1_counterexample :
    (sendMessage init "Hi" ⟨true, 200, "", some [Except.ok ⟨"Hel", false⟩]⟩).1.error = none ∧
    (sendMessage init "Hi" ⟨true, 200, "", some [Except.ok ⟨"Hel", false⟩]⟩).1.messages
      = [⟨Role.user, "Hi"⟩] :=
  ⟨rfl, rfl⟩

/-- C1 amended: when the response stream signals end-of-data before any
`done = true` chunk (all delivered units parse as chunks with `done = false`),
the reader commits no assistant message, but it ends the exchange silently:
the error state is `none` (no `IncompleteStreamError` is reported), and
loading and streaming return to false. -/
theorem C1_amended_silent_end (st : ClientState) (content : String)
    (chunks : List StreamChunk) (resp : FetchResponse)
    (hok : resp.ok = true) (hbody : resp.body = some (chunks.map Except.ok))
    (h : ∀ c ∈ chunks, c.done = false) :
    (sendMessage st content resp).1.messages = st.messages ++ [⟨Role.user, content⟩] ∧
    (sendMessage st content resp).1.error = none ∧
    (sendMessage st content resp).1.isLoading = false ∧
    (sendMessage st content resp).1.isStreaming = false := by
  have hread : readLoop (⟨st.messages ++ [⟨Role.user, content⟩], true, none, true⟩ : ClientState)
      "" (chunks.map Except.ok)
      = (⟨st.messages ++ [⟨Role.user, content⟩], true, none, true⟩ : ClientState) := by
    have h2 := readLoop_ok_notDone chunks
      (⟨st.messages ++ [⟨Role.user, content⟩], true, none, true⟩ : ClientState) "" [] h
    simpa [readLoop] using h2
  simp [sendMessage, handleResponse, hok, hbody, hread, finalize, preSend,
    addMessage, setError, setLoading]

/-- C1 witness: the amended statement at the concrete one-chunk-then-close
stream of the counterexample. -/
theorem C1_witness :
    (sendMessage init "Hi" ⟨true, 200, "", some [Except.ok ⟨"Hel", false⟩]⟩).1.messages
      = [⟨Role.user, "Hi"⟩] ∧
    (sendMessage init "Hi" ⟨true, 200, "", some [Except.ok ⟨"Hel", false⟩]⟩).1.error = none := by
  have h := C1_amended_silent_end init "Hi" [⟨"Hel", false⟩]
    ⟨true, 200, "", some [Except.ok ⟨"Hel", false⟩]⟩ rfl rfl (by decide)
  exact ⟨h.1, h.2.1⟩

/-- C2 counterexample: with two prior messages already in history, the posted
request body holds only the newly submitted user message, not the full
conversation history followed by the new message. -/
theorem C2_counterexample :
    (sendMessage ⟨[⟨Role.user, "prev"⟩, ⟨Role.assistant, "ans"⟩], false, none, false⟩ "Hi"
        ⟨true, 200, "", some [Except.ok ⟨"", true⟩]⟩).2.messages
      ≠ [⟨Role.user, "prev"⟩, ⟨Role.assistant, "ans"⟩] ++ [⟨Role.user, "Hi"⟩] := by
  decide

/-- C2 amended: for every submission, the `ChatRequest` body sent to the relay
contains exactly one message — the newly submitted user message — regardless
of the store's history, together with `stream = true`. -/
theorem C2_request_only_new_message (st : ClientState) (content : String)
    (resp : FetchResponse) :
    (sendMessage st content resp).2
      = { messages := [⟨Role.user, content⟩], stream := true } :=
  rfl

/-- C3: for a stream of successfully parsed chunks — any number of
non-terminal chunks followed by a terminal `done = true` chunk — the finalized
assistant message content is the concatenation of the consumed chunks'
`content` fields in arrival order. -/
theorem C3_accumulation_order (st : ClientState) (content : String)
    (pre : List StreamChunk) (tc : StreamChunk) (resp : FetchResponse)
    (hok : resp.ok = true) (hbody : resp.body = some ((pre ++ [tc]).map Except.ok))
    (hpre : ∀ c ∈ pre, c.done = false) (htc : tc.done = true) :
    (sendMessage st content resp).1.messages =
      st.messages ++ [⟨Role.user, content⟩,
        ⟨Role.assistant, concatContents (pre ++ [tc])⟩] := by
  have hread : readLoop (⟨st.messages ++ [⟨Role.user, content⟩], true, none, true⟩ : ClientState)
      "" ((pre ++ [tc]).map Except.ok)
      = addMessage (⟨st.messages ++ [⟨Role.user, content⟩], true, none, true⟩ : ClientState)
          (concatContents (pre ++ [tc])) Role.assistant := by
    have h2 := readLoop_ok_notDone pre
      (⟨st.messages ++ [⟨Role.user, content⟩], true, none, true⟩ : ClientState) ""
      [Except.ok tc] hpre
    rw [List.map_append]
    simp only [List.map_cons, List.map_nil] at h2 ⊢
    rw [h2, readLoop, if_pos htc, strEmpty_append, concatContents_append, concatContents,
      concatContents, strAppend_empty]
  simp only [List.map_append, List.map_cons, List.map_nil] at hread
  simp [sendMessage, handleResponse, hok, hbody, hread, finalize, preSend,
    addMessage, setError, setLoading]

/-- C3 witness: the spec's Scenario C — chunks `{"Hel", false}`, `{"lo",
false}`, `{"", true}` yield the single assistant message `"Hello"`. -/
theorem C3_witness :
    (sendMessage init "Hi"
      ⟨true, 200, "",
        some [Except.ok ⟨"Hel", false⟩, Except.ok ⟨"lo", false⟩, Except.ok ⟨"", true⟩]⟩).1.messages
      = [⟨Role.user, "Hi"⟩, ⟨Role.assistant, "Hello"⟩] := by
  have h := C3_accumulation_order init "Hi" [⟨"Hel", false⟩, ⟨"lo", false⟩] ⟨"", true⟩
    ⟨true, 200, "",
      some [Except.ok ⟨"Hel", false⟩, Except.ok ⟨"lo", false⟩, Except.ok ⟨"", true⟩]⟩
    rfl rfl (by decide) rfl
  simpa [init, concatContents] using h

/-- C4 counterexample: for the stream `{content: "a", done: false}`,
`{content: "b", done: true}` the committed assistant content is `"ab"` — the
terminal chunk's content IS included (the code appends `data.content` before
testing `data.done`) — not `"a"` as the claim's "non-terminal chunks only"
requires. -/
theorem C4_counterexample :
    (sendMessage init "Hi"
        ⟨true, 200, "", some [Except.ok ⟨"a", false⟩, Except.ok ⟨"b", true⟩]⟩).1.messages
      = [⟨Role.user, "Hi"⟩, ⟨Role.assistant, "ab"⟩] ∧
    (sendMessage init "Hi"
        ⟨true, 200, "", some [Except.ok ⟨"a", false⟩, Except.ok ⟨"b", true⟩]⟩).1.messages
      ≠ [⟨Role.user, "Hi"⟩, ⟨Role.assistant, "a"⟩] := by
  decide

/-- C4 amended: for every stream completed by a `done = true` chunk, exactly
one assistant message is appended, and its content is the concatenation of the
contents of ALL consumed chunks — the terminal chunk's content included. -/
theorem C4_single_commit_all_contents (st : ClientState) (content : String)
    (pre : List StreamChunk) (tc : StreamChunk) (resp : FetchResponse)
    (hok : resp.ok = true) (hbody : resp.body = some ((pre ++ [tc]).map Except.ok))
    (hpre : ∀ c ∈ pre, c.done = false) (htc : tc.done = true) :
    (sendMessage st content resp).1.messages =
      st.messages ++ [⟨Role.user, content⟩,
        ⟨Role.assistant, concatContents pre ++ tc.content⟩] ∧
    ((sendMessage st content resp).1.messages.filter
        (fun m => m.role == Role.assistant)).length
      = (st.messages.filter (fun m => m.role == Role.assistant)).length + 1 := by
  have hread : readLoop (⟨st.messages ++ [⟨Role.user, content⟩], true, none, true⟩ : ClientState)
      "" ((pre ++ [tc]).map Except.ok)
      = addMessage (⟨st.messages ++ [⟨Role.user, content⟩], true, none, true⟩ : ClientState)
          (concatContents pre ++ tc.content) Role.assistant := by
    have h2 := readLoop_ok_notDone pre
      (⟨st.messages ++ [⟨Role.user, content⟩], true, none, true⟩ : ClientState) ""
      [Except.ok tc] hpre
    rw [List.map_append]
    simp only [List.map_cons, List.map_nil] at h2 ⊢
    rw [h2, readLoop, if_pos htc, strEmpty_append]
  simp only [List.map_append, List.map_cons, List.map_nil] at hread
  constructor
  · simp [sendMessage, handleResponse, hok, hbody, hread, finalize, preSend,
      addMessage, setError, setLoading]
  · simp [sendMessage, handleResponse, hok, hbody, hread, finalize, preSend,
      addMessage, setError, setLoading, List.filter_append]

/-- C4 witness: the amended statement at the two-chunk stream of the
counterexample: assistant content `"ab"` and assistant count 1. -/
theorem C4_witness :
    (sendMessage init "Hi"
        ⟨true, 200, "", some [Except.ok ⟨"a", false⟩, Except.ok ⟨"b", true⟩]⟩).1.messages
      = [⟨Role.user, "Hi"⟩, ⟨Role.assistant, "ab"⟩] ∧
    ((sendMessage init "Hi"
        ⟨true, 200, "", some [Except.ok ⟨"a", false⟩, Except.ok ⟨"b", true⟩]⟩).1.messages.filter
        (fun m => m.role == Role.assistant)).length = 1 := by
  have h := C4_single_commit_all_contents init "Hi" [⟨"a", false⟩] ⟨"b", true⟩
    ⟨true, 200, "", some [Except.ok ⟨"a", false⟩, Except.ok ⟨"b", true⟩]⟩
    rfl rfl (by decide) rfl
  constructor
  · simpa [init, concatContents] using h.1
  · simpa [init] using h.2

/-- C5: whenever the initial HTTP response has `ok = false`, the recorded
error is the string built from the status code and the verbatim body text, no
assistant message is appended (only the optimistic user message), and loading
is false at the end. -/
theorem C5_request_error (st : ClientState) (content : String) (resp : FetchResponse)
    (h : resp.ok = false) :
    (sendMessage st content resp).1.error =
      some ("Failed to send message: " ++ toString resp.status ++ " " ++ resp.bodyText) ∧
    (sendMessage st content resp).1.messages = st.messages ++ [⟨Role.user, content⟩] ∧
    (sendMessage st content resp).1.isLoading = false := by
  simp [sendMessage, handleResponse, h, finalize, preSend, addMessage, setError, setLoading]

/-- C5 witness: the spec's Scenario B — HTTP 500 with body `"rate limited"`
records the error `"Failed to send message: 500 rate limited"`. -/
theorem C5_witness :
    (sendMessage init "Hi" ⟨false, 500, "rate limited", none⟩).1.error
      = some "Failed to send message: 500 rate limited" ∧
    (sendMessage init "Hi" ⟨false, 500, "rate limited", none⟩).1.messages
      = [⟨Role.user, "Hi"⟩] ∧
    (sendMessage init "Hi" ⟨false, 500, "rate limited", none⟩).1.isLoading = false := by
  have h := C5_request_error init "Hi" ⟨false, 500, "rate limited", none⟩ rfl
  refine ⟨?_, by simpa [init] using h.2.1, h.2.2⟩
  rw [h.1]
  decide

/-- Whatever the response, `handleResponse` can only append to the message
list. -/
lemma handleResponse_messages_extend (st : ClientState) (resp : FetchResponse) :
    ∃ tail, (handleResponse st resp).messages = st.messages ++ tail := by
  unfold handleResponse
  by_cases hok : resp.ok = true
  · rw [if_pos hok]
    cases hbody : resp.body with
    | none => exact ⟨[], by simp [setError]⟩
    | some units =>
        obtain ⟨tail, htail⟩ :=
          readLoop_messages_extend units { st with isStreaming := true } ""
        exact ⟨tail, by simpa using htail⟩
  · rw [if_neg hok]
    exact ⟨[], by simp [setError]⟩

/-- C6: the statements of `sendMessage` that run before the network response
is awaited append exactly one user message with the submitted content, set
loading to true and clear any prior error; and `sendMessage` factors through
this pre-network state for every possible response. -/
theorem C6_optimistic_append (st : ClientState) (content : String) :
    (preSend st content).messages = st.messages ++ [⟨Role.user, content⟩] ∧
    (preSend st content).isLoading = true ∧
    (preSend st content).error = none ∧
    ∀ resp : FetchResponse,
      sendMessage st content resp
        = (finalize (handleResponse (preSend st content) resp), requestBody content) :=
  ⟨rfl, rfl, rfl, fun _ => rfl⟩

/-- C7: a `sendMessage` exchange never removes or modifies messages already in
history — on every path (success, HTTP error, missing body, malformed chunk,
incomplete stream) the prior history is a prefix of the final history; and the
store operations themselves are frame-respecting: `setLoading` and `setError`
leave the message list unchanged, `addMessage` only appends. -/
theorem C7_history_preserved (st : ClientState) (content : String) (resp : FetchResponse) :
    (∃ tail, (sendMessage st content resp).1.messages = st.messages ++ tail) ∧
    (∀ s b, (setLoading s b).messages = s.messages) ∧
    (∀ s e, (setError s e).messages = s.messages) ∧
    (∀ s c r, (addMessage s c r).messages = s.messages ++ [⟨r, c⟩]) := by
  refine ⟨?_, fun s b => rfl, fun s e => rfl, fun s c r => rfl⟩
  obtain ⟨tail, htail⟩ := handleResponse_messages_extend (preSend st content) resp
  refine ⟨[⟨Role.user, content⟩] ++ tail, ?_⟩
  show (handleResponse (preSend st content) resp).messages = _
  rw [htail]
  show (st.messages ++ [⟨Role.user, content⟩]) ++ tail = _
  rw [List.append_assoc]

/-- C8: whenever loading or streaming is true the chat input is disabled, and
`handleSend` with a disabled input performs no send for any message text, so
no new submission can start while an exchange is in flight. -/
theorem C8_no_send_while_busy (st : ClientState)
    (h : st.isLoading = true ∨ st.isStreaming = true) :
    chatInputDisabled st = true ∧
    ∀ message, handleSend message (chatInputDisabled st) = none := by
  have hd : chatInputDisabled st = true := by
    cases h with
    | inl h1 => simp [chatInputDisabled, h1]
    | inr h2 => simp [chatInputDisabled, h2]
  refine ⟨hd, fun message => ?_⟩
  simp [handleSend, hd]

/-- C8 witness: the concrete loading state disables the input and blocks a
send of `"hello"`. -/
theorem C8_witness :
    chatInputDisabled ⟨[], true, none, false⟩ = true ∧
    handleSend "hello" (chatInputDisabled ⟨[], true, none, false⟩) = none := by
  have h := C8_no_send_while_busy ⟨[], true, none, false⟩ (Or.inl rfl)
  exact ⟨h.1, h.2 "hello"⟩

/-- C9: if some received stream unit fails to parse (after any number of
successfully parsed non-terminal chunks), the exchange ends with the parse
error recorded in the error state and no assistant message committed; the
conclusion does not depend on the units after the malformed one, so reading
stops there. -/
theorem C9_malformed_fatal (st : ClientState) (content : String)
    (pre : List StreamChunk) (emsg : String) (rest : List StreamUnit)
    (resp : FetchResponse) (hok : resp.ok = true)
    (hbody : resp.body = some (pre.map Except.ok ++ Except.error emsg :: rest))
    (hpre : ∀ c ∈ pre, c.done = false) :
    (sendMessage st content resp).1.error = some emsg ∧
    (sendMessage st content resp).1.messages = st.messages ++ [⟨Role.user, content⟩] := by
  have hread : readLoop (⟨st.messages ++ [⟨Role.user, content⟩], true, none, true⟩ : ClientState)
      "" (pre.map Except.ok ++ Except.error emsg :: rest)
      = setError (⟨st.messages ++ [⟨Role.user, content⟩], true, none, true⟩ : ClientState)
          (some emsg) := by
    rw [readLoop_ok_notDone pre _ "" _ hpre]
    rfl
  simp [sendMessage, handleResponse, hok, hbody, hread, finalize, preSend,
    addMessage, setError, setLoading]

/-- C9 witness: a stream whose only unit throws on `JSON.parse` with message
`"Unexpected token"` — that message is recorded and only the user message is
in history. -/
theorem C9_witness :
    (sendMessage init "Hi" ⟨true, 200, "", some [Except.error "Unexpected token"]⟩).1.error
      = some "Unexpected token" ∧
    (sendMessage init "Hi" ⟨true, 200, "", some [Except.error "Unexpected token"]⟩).1.messages
      = [⟨Role.user, "Hi"⟩] := by
  have h := C9_malformed_fatal init "Hi" [] "Unexpected token" []
    ⟨true, 200, "", some [Except.error "Unexpected token"]⟩ rfl rfl (by simp)
  simpa [init] using h

/-- C10: `handleSend` never sends a whitespace-only submission, and whenever
it does send, the sent content is exactly the trimmed submitted text and is
non-empty. -/
theorem C10_trimmed_nonempty (message : String) (disabled : Bool) :
    (trimString message = "" → handleSend message disabled = none) ∧
    ∀ s, handleSend message disabled = some s →
      s = trimString message ∧ trimString message ≠ "" := by
  constructor
  · intro h
    simp [handleSend, h]
  · intro s hs
    by_cases ht : trimString message = ""
    · simp [handleSend, ht] at hs
    · by_cases hd : disabled = true
      · simp [handleSend, hd] at hs
      · simp [handleSend, ht, hd] at hs
        exact ⟨hs.symm, ht⟩

/-- C10 witness: a whitespace-only submission is ignored, and `" hi "` is sent
as the non-empty trimmed text `"hi"`. -/
theorem C10_witness :
    handleSend "   " false = none ∧
    ("hi" = trimString " hi " ∧ trimString " hi " ≠ "") :=
  ⟨(C10_trimmed_nonempty "   " false).1 (by decide),
   (C10_trimmed_nonempty " hi " false).2 "hi" (by decide)⟩

end ChatOps
